import Mathlib

/-!
Verification of the protekt endpoint-protection agent against its
natural-language specification.

The definitions below are a shallow embedding of the Python sources under
`apps/agent/`: the SQLite-backed offline queue (`core/database.py`,
`services/offline_queue.py`), the command loop
(`services/command_processor.py`), the alert dispatcher
(`services/alert_manager.py`), the backup engine
(`services/backup_manager.py`) and the ransomware detector
(`services/file_watcher.py`).  SQLite rows become Lean structures, tables
become lists of rows, and each Python method becomes a Lean function over
that state.  External library calls (gzip/tar compression and Fernet
encryption) are modelled as abstract encoder/decoder pairs (`Codec`),
and network outcomes are passed in as explicit booleans.
-/

namespace Protekt

/-! ## Offline queue (`core/database.py`, table `offline_queue`) -/

/-- Payload of a queue row.  `offline_queue.payload` is a JSON string; the
command-result rows carry `{command_id, result}` and every other (or
malformed) payload is kept as raw text. -/
inductive Payload where
  | cmdResult (command_id : String) (result : String)
  | raw (text : String)
deriving Repr, DecidableEq

/-- A row of the `offline_queue` table (schema in `database.py`,
`_create_tables`): SQL defaults are `priority 0`, `retry_count 0`,
`max_retries 3`, `status 'pending'`. -/
structure QueueItem where
  id : Nat
  queue_type : String
  payload : Payload
  priority : Int
  created_at : Nat
  retry_count : Nat
  max_retries : Nat
  status : String
deriving Repr, DecidableEq

/-- The rowid SQLite assigns to the next inserted row
(`INTEGER PRIMARY KEY AUTOINCREMENT`): one more than the largest id. -/
def nextId (db : List QueueItem) : Nat :=
  (db.map (·.id)).foldr max 0 + 1

/-- `Database.add_to_queue`: `INSERT INTO offline_queue (queue_type,
payload, priority) VALUES (?, ?, ?)`; the remaining columns take their
SQL defaults and `created_at` the current timestamp. -/
def add_to_queue (db : List QueueItem) (queue_type : String) (payload : Payload)
    (priority : Int) (now : Nat) : List QueueItem :=
  db ++ [{ id := nextId db, queue_type := queue_type, payload := payload,
           priority := priority, created_at := now, retry_count := 0,
           max_retries := 3, status := "pending" }]

/-- The `ORDER BY priority DESC, created_at ASC` ordering used by
`Database.get_queue_items`. -/
def queueOrder (a b : QueueItem) : Prop :=
  b.priority < a.priority ∨ (a.priority = b.priority ∧ a.created_at ≤ b.created_at)

instance : DecidableRel queueOrder := fun a b => by
  unfold queueOrder; exact inferInstance

instance : IsTotal QueueItem queueOrder := by
  constructor
  intro a b
  unfold queueOrder
  rcases lt_trichotomy a.priority b.priority with h | h | h
  · exact Or.inr (Or.inl h)
  · rcases Nat.le_total a.created_at b.created_at with h2 | h2
    · exact Or.inl (Or.inr ⟨h, h2⟩)
    · exact Or.inr (Or.inr ⟨h.symm, h2⟩)
  · exact Or.inl (Or.inl h)

instance : IsTrans QueueItem queueOrder := by
  constructor
  intro a b c hab hbc
  unfold queueOrder at *
  rcases hab with h1 | ⟨h1, h1'⟩ <;> rcases hbc with h2 | ⟨h2, h2'⟩
  · exact Or.inl (h2.trans h1)
  · exact Or.inl (h2 ▸ h1)
  · exact Or.inl (h1 ▸ h2)
  · exact Or.inr ⟨h1.trans h2, h1'.trans h2'⟩

/-- `Database.get_queue_items`: `SELECT * FROM offline_queue WHERE
[queue_type = ? AND] status = ? ORDER BY priority DESC, created_at ASC
LIMIT ?`. -/
def get_queue_items (db : List QueueItem) (queue_type : Option String)
    (status : String) (limit : Nat) : List QueueItem :=
  let base :=
    match queue_type with
    | some t => db.filter (fun (x : QueueItem) => x.queue_type == t && x.status == status)
    | none => db.filter (fun (x : QueueItem) => x.status == status)
  (base.insertionSort queueOrder).take limit

/-- Result-merge step of `Database.update_queue_item`: `payload['result']
= result` on the JSON payload.  (On a payload that is not a
command-result object the source would raise while re-serialising; none
of the modelled call sites pass a result, so the raw case is left
unchanged.) -/
def patchResult (p : Payload) (r : String) : Payload :=
  match p with
  | .cmdResult cid _ => .cmdResult cid r
  | .raw s => .raw s

/-- `Database.update_queue_item`: `UPDATE offline_queue SET status = ?,
retry_count = retry_count + 1 WHERE id = ?`, then optionally merges a
result into the payload of the same rows. -/
def update_queue_item (db : List QueueItem) (itemId : Nat) (status : String)
    (result : Option String) : List QueueItem :=
  let db1 := db.map fun x =>
    if x.id = itemId then { x with status := status, retry_count := x.retry_count + 1 }
    else x
  match result with
  | none => db1
  | some r => db1.map fun x =>
      if x.id = itemId then { x with payload := patchResult x.payload r } else x

/-- `OfflineQueue.retry_failed_items`: `UPDATE offline_queue SET status =
'pending', retry_count = 0 WHERE status = 'failed' AND retry_count <
max_retries`. -/
def retry_failed_items (db : List QueueItem) : List QueueItem :=
  db.map fun x =>
    if x.status == "failed" && x.retry_count < x.max_retries then
      { x with status := "pending", retry_count := 0 }
    else x

/-! ## Command loop (`services/command_processor.py`) -/

/-- A row of the `command_history` table.  `command_id` carries a
`UNIQUE` constraint in the schema. -/
structure CommandRecord where
  command_id : String
  command_type : String
  parameters : String
  status : String
  result : Option String
deriving Repr, DecidableEq

/-- A command as parsed from a poll response:
`{id, type, parameters}`, each of the first two possibly absent. -/
structure Command where
  id : Option String
  ctype : Option String
  parameters : String
deriving Repr, DecidableEq

/-- `CommandProcessor._record_command`: `INSERT OR REPLACE INTO
command_history (command_id, command_type, parameters, status,
created_at) VALUES (...)`.  Under the `UNIQUE(command_id)` constraint,
`INSERT OR REPLACE` deletes any row with the same `command_id` and
inserts the new one (with `result` NULL). -/
def record_command (hist : List CommandRecord) (cid ctype params status : String) :
    List CommandRecord :=
  hist.filter (fun r => r.command_id ≠ cid) ++
    [{ command_id := cid, command_type := ctype, parameters := params,
       status := status, result := none }]

/-- `CommandProcessor._update_command_status`: `UPDATE command_history
SET status = ?, result = ?, completed_at = ? WHERE command_id = ?`. -/
def update_command_status (hist : List CommandRecord) (cid status result : String) :
    List CommandRecord :=
  hist.map fun r =>
    if r.command_id = cid then { r with status := status, result := some result } else r

/-- The keys of `CommandProcessor.command_handlers`. -/
def commandHandlerTypes : List String :=
  ["backup", "restore", "scan", "isolate", "update_config", "shutdown",
   "restart", "get_status", "get_logs"]

/-- `CommandProcessor._send_command_result`: when no base URL/API key is
configured, or the POST of `{command_id, result, completed_at}` does not
return 200 (or raises), the result is queued via
`db.add_to_queue('command_result', {'command_id': ..., 'result': ...})`
-- with no `priority` argument, so `add_to_queue`'s default `0`. -/
def send_command_result (configured postOk : Bool) (cid res : String) (now : Nat)
    (q : List QueueItem) : List QueueItem :=
  if !configured then
    add_to_queue q "command_result" (.cmdResult cid res) 0 now
  else if postOk then q
  else
    add_to_queue q "command_result" (.cmdResult cid res) 0 now

/-- State touched by one command: the `command_history` table, the
offline queue, and the log of handler invocations (one entry per actual
call of a `command_handlers` entry, recording `(command_id,
command_type)`). -/
structure CommandState where
  history : List CommandRecord
  queue : List QueueItem
  executions : List (String × String)
deriving Repr, DecidableEq

/-- `CommandProcessor._process_command`: reads `id`/`type` (bailing out
if either is missing), records the command with status `received`
(`INSERT OR REPLACE` -- with no check whether the id was already
processed), dispatches `_execute_command` (which raises for unknown
types before any handler runs, and otherwise invokes the handler),
updates the record to `completed`/`failed` and sends the result.  The
handler itself is passed in as `handler type parameters`, returning
`.ok result` or `.error message`. -/
def process_command (handler : String → String → Except String String)
    (configured postOk : Bool) (now : Nat) (st : CommandState) (cmd : Command) :
    CommandState :=
  match cmd.id, cmd.ctype with
  | some cid, some ctype =>
    let st1 : CommandState :=
      { st with history := record_command st.history cid ctype cmd.parameters "received" }
    if commandHandlerTypes.contains ctype then
      let st2 : CommandState := { st1 with executions := st1.executions ++ [(cid, ctype)] }
      match handler ctype cmd.parameters with
      | .ok res =>
        { st2 with
          history := update_command_status st2.history cid "completed" res,
          queue := send_command_result configured postOk cid res now st2.queue }
      | .error e =>
        { st2 with
          history := update_command_status st2.history cid "failed" e,
          queue := send_command_result configured postOk cid e now st2.queue }
    else
      let e := "Unknown command type: " ++ ctype
      { st1 with
        history := update_command_status st1.history cid "failed" e,
        queue := send_command_result configured postOk cid e now st1.queue }
  | _, _ => st

/-- One iteration step of `CommandProcessor._process_offline_queue` over
a claimed item: parse the payload (`command_id`, `result`; a payload
that is not a command-result object raises and the item is marked
`failed`), re-send via `_send_command_result` (which never raises and on
failure enqueues a fresh item), then mark the claimed item `completed`.
`postOk` gives the POST outcome per command id. -/
def offline_queue_step (configured : Bool) (postOk : String → Bool) (now : Nat)
    (acc : List QueueItem) (item : QueueItem) : List QueueItem :=
  match item.payload with
  | .cmdResult cid res =>
    let acc1 := send_command_result configured (postOk cid) cid res now acc
    update_queue_item acc1 item.id "completed" none
  | .raw _ => update_queue_item acc item.id "failed" none

/-- `CommandProcessor._process_offline_queue`: claim up to 10 pending
`command_result` items, then process each in order. -/
def process_offline_queue (configured : Bool) (postOk : String → Bool) (now : Nat)
    (q : List QueueItem) : List QueueItem :=
  (get_queue_items q (some "command_result") "pending" 10).foldl
    (offline_queue_step configured postOk now) q

/-! ## Alert dispatcher (`services/alert_manager.py`) -/

/-- In-memory state of `AlertManager`: the `last_alerts` cooldown map
(dedup key to time of last emission) and, for specification purposes,
the chronological log of alert emissions `(dedup key, time)` -- one
entry per `_send_alert` call. -/
structure AlertState where
  lastAlerts : List (String × Int)
  emissions : List (String × Int)
deriving Repr, DecidableEq

/-- Dictionary lookup on the `last_alerts` map (newest binding wins). -/
def lookupKey (m : List (String × Int)) (k : String) : Option Int :=
  (m.find? (fun p => p.1 == k)).map (·.2)

/-- The dedup key of `_should_send_alert`: `event_type + "_" + severity`. -/
def dedupKey (etype severity : String) : String :=
  etype ++ "_" ++ severity

/-- `AlertManager._should_send_alert`: skip when the last emission for
the key is within `alert_cooldown` seconds; otherwise record the current
time for the key and allow the alert. -/
def should_send_alert (cooldown : Int) (st : AlertState) (etype severity : String)
    (now : Int) : Bool × AlertState :=
  let key := dedupKey etype severity
  match lookupKey st.lastAlerts key with
  | some t =>
    if now - t < cooldown then (false, st)
    else (true, { st with lastAlerts := (key, now) :: st.lastAlerts })
  | none => (true, { st with lastAlerts := (key, now) :: st.lastAlerts })

/-- `AlertManager._send_alert`, abstracted to what the claims observe:
one alert emission for the given event type and severity. -/
def send_alert (st : AlertState) (etype severity : String) (now : Int) : AlertState :=
  { st with emissions := st.emissions ++ [(dedupKey etype severity, now)] }

/-- `AlertManager._process_security_event`: consult
`_should_send_alert`; if allowed, format and send the alert (and mark
the event resolved). -/
def process_security_event (cooldown : Int) (st : AlertState) (etype severity : String)
    (now : Int) : AlertState :=
  let r := should_send_alert cooldown st etype severity now
  if r.1 then send_alert r.2 etype severity now else r.2

/-- The command types `_process_command_event` alerts on. -/
def commandAlertTypes : List String := ["backup", "restore", "scan", "isolate"]

/-- `AlertManager._process_command_event`: for command types in the
alert list, format and send a `command_executed` alert with severity
`medium` -- without consulting `_should_send_alert`. -/
def process_command_event (st : AlertState) (ctype : String) (now : Int) : AlertState :=
  if commandAlertTypes.contains ctype then
    send_alert st "command_executed" "medium" now
  else st

/-- A security-event candidate scanned by the dispatcher tick:
event type, severity and the wall-clock time at which
`_process_security_event` handles it. -/
structure SecCandidate where
  etype : String
  severity : String
  time : Int
deriving Repr, DecidableEq

/-- Dispatcher run over a chronological sequence of security-event
candidates, starting from an empty cooldown map (fresh
`AlertManager`). -/
def run_security_events (cooldown : Int) (evs : List SecCandidate) : AlertState :=
  evs.foldl (fun st e => process_security_event cooldown st e.etype e.severity e.time)
    ⟨[], []⟩

/-! ## Backup engine (`services/backup_manager.py`) -/

/-- An invertible encoder/decoder pair.  The gzip-compressed tar layer
(`tarfile.open(..., 'w:gz')` / `'r:gz'`) and the Fernet authenticated
cipher (`cipher_suite.encrypt` / `.decrypt`) are external libraries the
source calls; they are modelled as such pairs, decoding failure
standing for `tarfile`/`InvalidToken` errors. -/
structure Codec (α : Type) where
  enc : α → List Nat
  dec : List Nat → Option α
  dec_enc : ∀ x, dec (enc x) = some x

/-- The columns of the `backup_records` table as created by
`Database._create_tables` in `core/database.py`. -/
def backupRecordsColumns : List String :=
  ["id", "backup_id", "backup_type", "source_paths", "backup_path",
   "size_bytes", "encrypted", "created_at", "uploaded", "upload_url"]

/-- The column list of the `INSERT INTO backup_records (...)` statement
in `BackupManager._record_backup`. -/
def recordBackupInsertColumns : List String :=
  ["backup_id", "backup_type", "source_paths", "backup_path",
   "size_bytes", "encrypted", "created_at", "checksum", "description"]

/-- `BackupManager._record_backup`: the INSERT succeeds only if every
column it names exists in the table schema; SQLite raises
`OperationalError: table has no column named c` otherwise. -/
def record_backup_insert : Except String Unit :=
  match recordBackupInsertColumns.find? (fun c => !backupRecordsColumns.contains c) with
  | some c => .error ("table backup_records has no column named " ++ c)
  | none => .ok ()

/-- `BackupManager.create_backup` restricted to a single existing source
file (name and contents given as byte strings): build the
gzip-compressed tar archive, abort returning `None` if it exceeds
`max_backup_size`, encrypt it, compute the SHA-256 of the ciphertext,
and record the backup in the database -- any exception (in particular
from `_record_backup`) is caught and `None` returned.  On success the
returned value carries the ciphertext and its checksum (the observable
artifact the `backup_id` names). -/
def create_backup (tgz : Codec (List Nat × List Nat)) (fern : Codec (List Nat))
    (hash : List Nat → List Nat) (maxSize : Nat) (name content : List Nat) :
    Option (List Nat × List Nat) :=
  let archive := tgz.enc (name, content)
  if archive.length > maxSize then none
  else
    let cipher := fern.enc archive
    let checksum := hash cipher
    match record_backup_insert with
    | .ok _ => some (cipher, checksum)
    | .error _ => none

/-- `BackupManager._verify_checksum`: skip verification when no
checksum is stored (`None` or empty), else compare the SHA-256 of the
on-disk file with the stored value. -/
def verify_checksum (hash : List Nat → List Nat) (artifact : List Nat)
    (expected : Option (List Nat)) : Bool :=
  match expected with
  | none => true
  | some s => if s.isEmpty then true else hash artifact == s

/-- Outcome of `BackupManager.restore_backup`: the returned boolean,
whether decryption was ever attempted, and the files extracted under
the restore directory. -/
structure RestoreOutcome where
  success : Bool
  decryptAttempted : Bool
  extracted : List (List Nat × List Nat)
deriving Repr, DecidableEq

/-- `BackupManager.restore_backup`: look up the record (`none` = not
found), check the artifact file exists, verify the checksum, decrypt,
and untar into the restore directory.  `record` carries the stored
checksum of the found record; `artifact` is the on-disk ciphertext. -/
def restore_backup (tgz : Codec (List Nat × List Nat)) (fern : Codec (List Nat))
    (hash : List Nat → List Nat) (record : Option (Option (List Nat)))
    (artifact : Option (List Nat)) : RestoreOutcome :=
  match record with
  | none => ⟨false, false, []⟩
  | some storedChecksum =>
    match artifact with
    | none => ⟨false, false, []⟩
    | some a =>
      if !verify_checksum hash a storedChecksum then ⟨false, false, []⟩
      else
        match fern.dec a with
        | none => ⟨false, true, []⟩
        | some archive =>
          match tgz.dec archive with
          | none => ⟨false, true, []⟩
          | some nc => ⟨true, true, [nc]⟩

/-! ## Ransomware detector (`services/file_watcher.py`) -/

/-- An entry of `RansomwareDetector.recent_events`: the `event_data`
dict built by `_process_file_event`, with the two pattern flags
precomputed there from the path. -/
structure FEvent where
  etype : String
  srcPath : String
  timestamp : Int
  isSuspiciousExt : Bool
  isEncryptionPattern : Bool
deriving Repr, DecidableEq

/-- The event types the watchdog handlers feed into the ring. -/
def fsEventTypes : List String := ["created", "modified", "moved", "deleted"]

/-- The 60-second sliding window of `_check_ransomware_patterns`:
events with `timestamp > current_time - 60`. -/
def recentWindow (ring : List FEvent) (now : Int) : List FEvent :=
  ring.filter (fun e => now - 60 < e.timestamp)

/-- The `details` dict passed to `_trigger_alert`, per detector. -/
inductive RDetails where
  | massFileOps (created modified moved deleted threshold : Nat)
  | massRenames (count threshold : Nat)
  | suspiciousExts (count threshold : Nat)
  | encryptionPatterns (count : Nat) (files : List String)
  | rapidModifications (count : Nat) (files : List String)
deriving Repr, DecidableEq

/-- One `_trigger_alert` call: detector name, severity, details. -/
structure RAlert where
  detector : String
  severity : String
  details : RDetails
deriving Repr, DecidableEq

/-- `RansomwareDetector._check_ransomware_patterns`: scan the last 60
seconds of the ring (returning early if empty) and fire the five
detectors in order; thresholds 50 / 30 / 10 / 5 / 20, all strict.  The
`encryption_patterns` detector reports the full list of matching paths;
`rapid_modifications` reports only the first 10 modified paths. -/
def check_ransomware_patterns (ring : List FEvent) (now : Int) : List RAlert :=
  let recent := recentWindow ring now
  if recent.isEmpty then []
  else
    let created := (recent.filter (fun e => e.etype == "created")).length
    let modified := (recent.filter (fun e => e.etype == "modified")).length
    let moved := (recent.filter (fun e => e.etype == "moved")).length
    let deleted := (recent.filter (fun e => e.etype == "deleted")).length
    let total := created + modified + moved + deleted
    (if total > 50 then
      [⟨"mass_file_operations", "high", .massFileOps created modified moved deleted 50⟩]
     else []) ++
    (if moved > 30 then [⟨"mass_renames", "high", .massRenames moved 30⟩] else []) ++
    (let susp := (recent.filter (fun e => e.isSuspiciousExt)).length
     if susp > 10 then [⟨"suspicious_extensions", "medium", .suspiciousExts susp 10⟩]
     else []) ++
    (let encs := recent.filter (fun e => e.isEncryptionPattern)
     if encs.length > 5 then
       [⟨"encryption_patterns", "critical",
         .encryptionPatterns encs.length (encs.map (·.srcPath))⟩]
     else []) ++
    (let mods := recent.filter (fun e => e.etype == "modified")
     if mods.length > 20 then
       [⟨"rapid_modifications", "high",
         .rapidModifications mods.length ((mods.map (·.srcPath)).take 10)⟩]
     else [])

/-- A row of `security_events` as written by `_trigger_alert` via
`db.log_security_event`. -/
structure SecurityEventRow where
  event_type : String
  severity : String
  details : RDetails
deriving Repr, DecidableEq

/-- `_trigger_alert` writes exactly one security event per firing, with
`event_type='ransomware_detection'` and the detector's severity and
details. -/
def trigger_alerts (alerts : List RAlert) : List SecurityEventRow :=
  alerts.map fun a => ⟨"ransomware_detection", a.severity, a.details⟩

/-- `RansomwareDetector._process_file_event` tail: append the event to
the ring, drop entries older than 5 minutes, and run the pattern
check. -/
def process_file_event (ring : List FEvent) (e : FEvent) (now : Int) :
    List FEvent × List RAlert :=
  let ring1 := (ring ++ [e]).filter (fun x => now - x.timestamp < 300)
  (ring1, check_ransomware_patterns ring1 now)

/-! ## Concrete codec instances and spec-side helper predicates -/

/-- A trivial byte-level codec, used to instantiate the abstract cipher
layer on concrete inputs. -/
def idCodec : Codec (List Nat) where
  enc := fun b => b
  dec := fun b => some b
  dec_enc := fun _ => rfl

/-- A concrete single-file archive codec (length-prefixed name followed
by the contents), used to instantiate the archive layer on concrete
inputs. -/
def pairCodec : Codec (List Nat × List Nat) where
  enc := fun p => p.1.length :: p.1 ++ p.2
  dec := fun bs =>
    match bs with
    | [] => none
    | ln :: rest => if ln ≤ rest.length then some (rest.take ln, rest.drop ln) else none
  dec_enc := by
    intro p
    simp

/-- Some row of the table has the given id. -/
def rowPresent (db : List QueueItem) (x : Nat) : Prop :=
  ∃ r ∈ db, r.id = x

/-- Every row of the table with the given id has the given status. -/
def statusAt (db : List QueueItem) (x : Nat) (s : String) : Prop :=
  ∀ r ∈ db, r.id = x → r.status = s

/-- Concrete fixture: a failed queue row with retries left. -/
def wFailedRow : QueueItem :=
  { id := 1, queue_type := "telemetry", payload := .raw "t", priority := 1,
    created_at := 0, retry_count := 2, max_retries := 3, status := "failed" }

/-- Concrete fixture: a failed queue row with retries exhausted. -/
def wExhaustedRow : QueueItem :=
  { id := 2, queue_type := "telemetry", payload := .raw "u", priority := 1,
    created_at := 1, retry_count := 3, max_retries := 3, status := "failed" }

/-- Concrete fixture: a pending command-result queue row. -/
def wPendingResultRow : QueueItem :=
  { id := 5, queue_type := "command_result", payload := .cmdResult "c" "r",
    priority := 0, created_at := 0, retry_count := 0, max_retries := 3,
    status := "pending" }

/-- Spec-side count: events of the given type in the last 60 seconds. -/
def recentCount (ring : List FEvent) (now : Int) (ty : String) : Nat :=
  ((recentWindow ring now).filter (fun e => e.etype == ty)).length

/-- Spec-side count: suspicious-extension events in the last 60 seconds. -/
def recentSuspicious (ring : List FEvent) (now : Int) : Nat :=
  ((recentWindow ring now).filter (fun e => e.isSuspiciousExt)).length

/-- Spec-side count: encryption-named events in the last 60 seconds. -/
def recentEncryption (ring : List FEvent) (now : Int) : Nat :=
  ((recentWindow ring now).filter (fun e => e.isEncryptionPattern)).length

/-- Spec-side list: source paths of encryption-named events in the last
60 seconds. -/
def recentEncryptionFiles (ring : List FEvent) (now : Int) : List String :=
  ((recentWindow ring now).filter (fun e => e.isEncryptionPattern)).map (·.srcPath)

/-- Spec-side list: source paths of modify events in the last 60
seconds. -/
def recentModifiedFiles (ring : List FEvent) (now : Int) : List String :=
  ((recentWindow ring now).filter (fun e => e.etype == "modified")).map (·.srcPath)

/-- Concrete fixture: a creation event for an encryption-named file at
time 0. -/
def encEv (s : String) : FEvent :=
  { etype := "created", srcPath := s, timestamp := 0, isSuspiciousExt := false,
    isEncryptionPattern := true }

/-- Concrete fixture: eleven encryption-named file events inside one
60-second window. -/
def encRing : List FEvent :=
  [encEv "a.locked", encEv "b.locked", encEv "c.locked", encEv "d.locked",
   encEv "e.locked", encEv "f.locked", encEv "g.locked", encEv "h.locked",
   encEv "i.locked", encEv "j.locked", encEv "k.locked"]

/-! ## Claim C1 -/

/-- C1: the claim says a duplicate of an already-recorded `command_id`
must not run the handler again.  The code has no such guard:
`_process_command` unconditionally calls `_record_command` (an
`INSERT OR REPLACE`, which silently replaces the existing row instead of
failing on the `UNIQUE(command_id)` constraint) and then dispatches the
handler.  Evaluating the model at the spec's own scenario -- the same
`{id: "c1", type: "get_status"}` served in two consecutive polls --
shows the handler runs twice while the history still holds a single
(replaced) record. -/
theorem duplicate_command_runs_handler_twice :
    (process_command (fun _ _ => .ok "ok") true true 0
        (process_command (fun _ _ => .ok "ok") true true 0
          ⟨[], [], []⟩ ⟨some "c1", some "get_status", ""⟩)
        ⟨some "c1", some "get_status", ""⟩).executions =
      [("c1", "get_status"), ("c1", "get_status")] ∧
    (process_command (fun _ _ => .ok "ok") true true 0
        (process_command (fun _ _ => .ok "ok") true true 0
          ⟨[], [], []⟩ ⟨some "c1", some "get_status", ""⟩)
        ⟨some "c1", some "get_status", ""⟩).history.length = 1 := by
  constructor <;> rfl

/-! ## Claim C7 -/

/-- C7: one `retry_failed_items` sweep resets every row with status
`failed` and `retry_count < max_retries` to `pending` with
`retry_count 0`, and leaves every other row (including exhausted failed
rows) unchanged. -/
theorem retry_failed_items_spec (db : List QueueItem) :
    (retry_failed_items db).length = db.length ∧
    ∀ (i : Nat) (x : QueueItem), db[i]? = some x →
      ((x.status = "failed" ∧ x.retry_count < x.max_retries →
          (retry_failed_items db)[i]? =
            some { x with status := "pending", retry_count := 0 }) ∧
       (¬(x.status = "failed" ∧ x.retry_count < x.max_retries) →
          (retry_failed_items db)[i]? = some x)) := by
  refine ⟨by simp [retry_failed_items], ?_⟩
  intro i x hx
  constructor
  · rintro ⟨h1, h2⟩
    simp [retry_failed_items, List.getElem?_map, hx, h1, h2]
  · intro h
    have hb : ¬((x.status == "failed" && decide (x.retry_count < x.max_retries)) = true) := by
      simp only [Bool.and_eq_true, beq_iff_eq, decide_eq_true_eq]
      exact h
    simp only [retry_failed_items, List.getElem?_map, hx, Option.map_some']
    rw [if_neg hb]

/-- Witness for C7 at a concrete queue: a retry-eligible failed row is
reset. -/
theorem retry_failed_items_spec_witness :
    ([wFailedRow, wExhaustedRow][0]? = some wFailedRow) ∧
    (retry_failed_items [wFailedRow, wExhaustedRow])[0]? =
      some { wFailedRow with status := "pending", retry_count := 0 } := by
  refine ⟨by decide, ?_⟩
  exact ((retry_failed_items_spec [wFailedRow, wExhaustedRow]).2 0 wFailedRow
    (by decide)).1 (by decide)

/-! ## Claim C9 -/

/-- C9: a single `update_queue_item` call increments the matched row's
`retry_count` by exactly one and sets its status to the given value,
whatever that value is (`completed` increments exactly as `failed`
does); rows with a different id are untouched. -/
theorem update_queue_item_increments_retry (db : List QueueItem) (itemId : Nat)
    (status : String) (result : Option String) :
    (update_queue_item db itemId status result).length = db.length ∧
    ∀ (i : Nat) (x : QueueItem), db[i]? = some x →
      ((x.id = itemId →
          ∃ y, (update_queue_item db itemId status result)[i]? = some y ∧
            y.retry_count = x.retry_count + 1 ∧ y.status = status) ∧
       (x.id ≠ itemId → (update_queue_item db itemId status result)[i]? = some x)) := by
  constructor
  · cases result <;> simp [update_queue_item]
  · intro i x hx
    constructor
    · intro h
      cases result with
      | none =>
        refine ⟨{ x with status := status, retry_count := x.retry_count + 1 }, ?_, rfl, rfl⟩
        simp [update_queue_item, List.getElem?_map, hx, h]
      | some r =>
        refine ⟨{ x with status := status, retry_count := x.retry_count + 1, payload := patchResult x.payload r }, ?_, rfl, rfl⟩
        simp [update_queue_item, List.getElem?_map, hx, h]
    · intro h
      cases result with
      | none => simp [update_queue_item, List.getElem?_map, hx, h]
      | some r => simp [update_queue_item, List.getElem?_map, hx, h]

/-- Witness for C9: marking a concrete item `completed` bumps its
`retry_count` from 0 to 1. -/
theorem update_queue_item_increments_retry_witness :
    ([wPendingResultRow][0]? = some wPendingResultRow) ∧
    ∃ y, (update_queue_item [wPendingResultRow] 5 "completed" none)[0]? = some y ∧
      y.retry_count = wPendingResultRow.retry_count + 1 ∧ y.status = "completed" := by
  refine ⟨by decide, ?_⟩
  exact ((update_queue_item_increments_retry [wPendingResultRow] 5 "completed" none).2
    0 wPendingResultRow (by decide)).1 (by decide)

/-! ## Claim C8 -/

/-- C8 counterexample: on a failed POST of a result for command `c1`
into an empty queue, `_send_command_result` enqueues the item with
priority 0 -- `add_to_queue`'s default, since the call passes no
priority -- not the priority 3 the claim states. -/
theorem send_command_result_priority_zero_counterexample :
    send_command_result true false "c1" "r1" 7 [] =
      [{ id := 1, queue_type := "command_result", payload := .cmdResult "c1" "r1",
         priority := 0, created_at := 7, retry_count := 0, max_retries := 3,
         status := "pending" }] ∧
    ((0 : Int) = 3 → False) := by
  exact ⟨rfl, by decide⟩

/-- C8 as amended: whenever the command loop fails to POST a command
result (or has no backend configured), it enqueues exactly one new
pending item with `queue_type=command_result`, priority 0 (the
`add_to_queue` default) and a payload carrying the command id and
result. -/
theorem send_command_result_enqueues_on_failure (configured postOk : Bool)
    (cid res : String) (now : Nat) (q : List QueueItem)
    (h : configured = false ∨ postOk = false) :
    send_command_result configured postOk cid res now q =
      q ++ [{ id := nextId q, queue_type := "command_result",
              payload := .cmdResult cid res, priority := 0, created_at := now,
              retry_count := 0, max_retries := 3, status := "pending" }] := by
  rcases h with h | h
  · subst h
    simp [send_command_result, add_to_queue]
  · subst h
    cases configured <;> simp [send_command_result, add_to_queue]

/-- Witness for amended C8: a concrete failed POST appends the
priority-0 command-result item. -/
theorem send_command_result_enqueues_on_failure_witness :
    (true = false ∨ false = false) ∧
    send_command_result true false "c9w" "res" 3 [wPendingResultRow] =
      [wPendingResultRow] ++
        [{ id := nextId [wPendingResultRow], queue_type := "command_result",
           payload := .cmdResult "c9w" "res", priority := 0, created_at := 3,
           retry_count := 0, max_retries := 3, status := "pending" }] := by
  exact ⟨Or.inr rfl,
    send_command_result_enqueues_on_failure true false "c9w" "res" 3
      [wPendingResultRow] (Or.inr rfl)⟩

/-! ## Claim C4 -/

/-- C4: whenever a backup record stores a (non-empty) checksum that
differs from the SHA-256 of the on-disk ciphertext, `restore_backup`
returns failure before attempting decryption and extracts nothing into
the restore directory. -/
theorem restore_refuses_on_checksum_mismatch (tgz : Codec (List Nat × List Nat))
    (fern : Codec (List Nat)) (hash : List Nat → List Nat)
    (chk a : List Nat) (hne : chk ≠ []) (hmm : hash a ≠ chk) :
    restore_backup tgz fern hash (some (some chk)) (some a) =
      { success := false, decryptAttempted := false, extracted := [] } := by
  have hv : verify_checksum hash a (some chk) = false := by
    simp only [verify_checksum, List.isEmpty_iff]
    rw [if_neg hne]
    simp [hmm]
  simp [restore_backup, hv]

/-- Witness for C4: a concrete corrupted artifact (stored checksum `[1]`,
actual hash `[2]`) is refused with nothing decrypted or written. -/
theorem restore_refuses_on_checksum_mismatch_witness :
    (([1] : List Nat) ≠ []) ∧ ((fun _ => ([2] : List Nat)) [0] ≠ [1]) ∧
    restore_backup pairCodec idCodec (fun _ => [2]) (some (some [1])) (some [0]) =
      { success := false, decryptAttempted := false, extracted := [] } := by
  exact ⟨by decide, by decide,
    restore_refuses_on_checksum_mismatch pairCodec idCodec (fun _ => [2]) [1] [0]
      (by decide) (by decide)⟩

/-! ## Claim C3 -/

/-- C3: the claim (and the repository's own test suite,
`test_backup_system` in `test_agent.py`) expects
`restore(create([f]))` to reproduce `f`.  In the code, however,
`BackupManager._record_backup` INSERTs into columns `checksum` and
`description` that the `backup_records` schema created by
`Database._create_tables` does not define, so the insert raises
`sqlite3.OperationalError`, `create_backup` catches it and returns
`None` -- for every input, even when the artifact is within
`max_backup_size`.  No backup record ever exists, so the claimed
round trip is unrealisable. -/
theorem create_backup_always_fails (tgz : Codec (List Nat × List Nat))
    (fern : Codec (List Nat)) (hash : List Nat → List Nat)
    (maxSize : Nat) (name content : List Nat) :
    create_backup tgz fern hash maxSize name content = none := by
  have hcol : record_backup_insert =
      .error "table backup_records has no column named checksum" := rfl
  simp only [create_backup]
  split
  · rfl
  · rw [hcol]

/-! ## Claim C6 -/

/-- C6: claiming pending items returns at most `limit` rows, all of
status `pending` (and of the requested queue type when one is given),
ordered by priority descending and, within equal priority, by
`created_at` ascending (`queueOrder`). -/
theorem get_queue_items_spec (db : List QueueItem) (qt : Option String) (limit : Nat) :
    (get_queue_items db qt "pending" limit).length ≤ limit ∧
    (∀ x ∈ get_queue_items db qt "pending" limit,
      x.status = "pending" ∧ ∀ t, qt = some t → x.queue_type = t) ∧
    List.Sorted queueOrder (get_queue_items db qt "pending" limit) := by
  cases qt with
  | none =>
    refine ⟨List.length_take_le _ _, ?_, ?_⟩
    · intro x hx
      have hx1 : x ∈ db.filter (fun x : QueueItem => x.status == "pending") := by
        have h2 := (List.take_sublist _ _).mem hx
        exact (List.perm_insertionSort queueOrder _).subset h2
      have hs := List.of_mem_filter hx1
      simp only [beq_iff_eq] at hs
      exact ⟨hs, fun t ht => by cases ht⟩
    · exact (List.sorted_insertionSort queueOrder _).sublist (List.take_sublist _ _)
  | some t0 =>
    refine ⟨List.length_take_le _ _, ?_, ?_⟩
    · intro x hx
      have hx1 : x ∈ db.filter
          (fun x : QueueItem => x.queue_type == t0 && x.status == "pending") := by
        have h2 := (List.take_sublist _ _).mem hx
        exact (List.perm_insertionSort queueOrder _).subset h2
      have hs := List.of_mem_filter hx1
      simp only [Bool.and_eq_true, beq_iff_eq] at hs
      refine ⟨hs.2, fun t ht => ?_⟩
      cases ht
      exact hs.1
    · exact (List.sorted_insertionSort queueOrder _).sublist (List.take_sublist _ _)

/-- Witness for C6: claiming from a concrete one-row queue returns the
row with pending status and the requested type. -/
theorem get_queue_items_spec_witness :
    (get_queue_items [wPendingResultRow] (some "command_result") "pending" 1).length ≤ 1 ∧
    (wPendingResultRow ∈
        get_queue_items [wPendingResultRow] (some "command_result") "pending" 1 ∧
      wPendingResultRow.status = "pending" ∧
      wPendingResultRow.queue_type = "command_result") := by
  refine ⟨(get_queue_items_spec [wPendingResultRow] (some "command_result") 1).1,
    by decide, ?_, ?_⟩
  · exact ((get_queue_items_spec [wPendingResultRow] (some "command_result") 1).2.1
      wPendingResultRow (by decide)).1
  · exact ((get_queue_items_spec [wPendingResultRow] (some "command_result") 1).2.1
      wPendingResultRow (by decide)).2 "command_result" rfl

/-! ## Claim C2 -/

/-- Unfolding `lookupKey` over a freshly recorded binding. -/
theorem lookupKey_cons (k' : String) (v : Int) (m : List (String × Int)) (k : String) :
    lookupKey ((k', v) :: m) k = if k' == k then some v else lookupKey m k := by
  unfold lookupKey
  rw [List.find?_cons]
  cases h : (k' == k) <;> simp [h]

/-- Cooldown invariant carried through a run of the security-event
path: every recorded emission has a `last_alerts` entry at least as
late, bounded by the current clock, and emissions sharing a dedup key
are at least `cooldown` apart. -/
theorem run_security_aux (cooldown : Int) :
    ∀ (evs : List SecCandidate) (st : AlertState) (t : Int),
      (∀ p ∈ st.emissions,
        ∃ t', lookupKey st.lastAlerts p.1 = some t' ∧ p.2 ≤ t' ∧ t' ≤ t) →
      st.emissions.Pairwise (fun a b => a.1 = b.1 → a.2 + cooldown ≤ b.2) →
      List.Sorted (· ≤ ·) (t :: evs.map SecCandidate.time) →
      (evs.foldl
          (fun st e => process_security_event cooldown st e.etype e.severity e.time)
          st).emissions.Pairwise
        (fun a b => a.1 = b.1 → a.2 + cooldown ≤ b.2) := by
  intro evs
  induction evs with
  | nil =>
    intro st t _ h2 _
    exact h2
  | cons e rest ih =>
    intro st t h1 h2 hsort
    have hte : t ≤ e.time := by
      have hc := (List.sorted_cons.mp hsort).1
      exact hc e.time (by simp)
    have hsort' : List.Sorted (· ≤ ·) (e.time :: rest.map SecCandidate.time) :=
      (List.sorted_cons.mp hsort).2
    simp only [List.foldl_cons]
    rcases hl : lookupKey st.lastAlerts (dedupKey e.etype e.severity) with _ | τ
    · -- no prior emission for this key: emit
      have hstep : process_security_event cooldown st e.etype e.severity e.time =
          { lastAlerts := (dedupKey e.etype e.severity, e.time) :: st.lastAlerts,
            emissions := st.emissions ++ [(dedupKey e.etype e.severity, e.time)] } := by
        simp [process_security_event, should_send_alert, hl, send_alert]
      rw [hstep]
      refine ih _ e.time ?_ ?_ hsort'
      · intro p hp
        rcases List.mem_append.mp hp with hp | hp
        · obtain ⟨t', ha, hb, hc⟩ := h1 p hp
          by_cases hk : p.1 = dedupKey e.etype e.severity
        -- a prior emission with this key would give a `last_alerts` hit
          · rw [hk] at ha
            rw [hl] at ha
            cases ha
          · refine ⟨t', ?_, hb, hc.trans hte⟩
            rw [lookupKey_cons]
            have : (dedupKey e.etype e.severity == p.1) = false := by
              simp [Ne.symm hk]
            simp [this, ha]
        · simp only [List.mem_singleton] at hp
          subst hp
          refine ⟨e.time, ?_, le_refl _, le_refl _⟩
          rw [lookupKey_cons]
          simp
      · rw [List.pairwise_append]
        refine ⟨h2, by simp, ?_⟩
        intro a ha b hb hab
        simp only [List.mem_singleton] at hb
        subst hb
        obtain ⟨t', ha', _, _⟩ := h1 a ha
        rw [hab, hl] at ha'
        cases ha'
    · by_cases hcd : e.time - τ < cooldown
      · -- within cooldown: skipped, state unchanged
        have hstep : process_security_event cooldown st e.etype e.severity e.time = st := by
          simp [process_security_event, should_send_alert, hl, hcd]
        rw [hstep]
        refine ih st e.time ?_ h2 hsort'
        intro p hp
        obtain ⟨t', ha, hb, hc⟩ := h1 p hp
        exact ⟨t', ha, hb, hc.trans hte⟩
      · -- cooldown elapsed: emit and refresh the key's timestamp
        have hstep : process_security_event cooldown st e.etype e.severity e.time =
            { lastAlerts := (dedupKey e.etype e.severity, e.time) :: st.lastAlerts,
              emissions := st.emissions ++ [(dedupKey e.etype e.severity, e.time)] } := by
          simp [process_security_event, should_send_alert, hl, hcd, send_alert]
        rw [hstep]
        refine ih _ e.time ?_ ?_ hsort'
        · intro p hp
          rcases List.mem_append.mp hp with hp | hp
          · obtain ⟨t', ha, hb, hc⟩ := h1 p hp
            by_cases hk : p.1 = dedupKey e.etype e.severity
            · refine ⟨e.time, ?_, ?_, le_refl _⟩
              · rw [lookupKey_cons]
                simp [hk]
              · exact hb.trans (hc.trans hte)
            · refine ⟨t', ?_, hb, hc.trans hte⟩
              rw [lookupKey_cons]
              have : (dedupKey e.etype e.severity == p.1) = false := by
                simp [Ne.symm hk]
              simp [this, ha]
          · simp only [List.mem_singleton] at hp
            subst hp
            refine ⟨e.time, ?_, le_refl _, le_refl _⟩
            rw [lookupKey_cons]
            simp
        · rw [List.pairwise_append]
          refine ⟨h2, by simp, ?_⟩
          intro a ha b hb hab
          simp only [List.mem_singleton] at hb
          subst hb
          obtain ⟨t', ha', hb', hc'⟩ := h1 a ha
          rw [hab, hl] at ha'
          cases ha'
          omega

/-- C2 counterexample: two `backup` commands handled one second apart
drive `_process_command_event`, which sends both `command_executed`
(severity `medium`) alerts without ever consulting
`_should_send_alert`: two emissions with the same dedup key within the
default 300-second cooldown. -/
theorem command_alerts_bypass_cooldown_counterexample :
    (process_command_event (process_command_event ⟨[], []⟩ "backup" 0) "backup" 1).emissions =
      [("command_executed_medium", 0), ("command_executed_medium", 1)] ∧
    ((1 : Int) - 0 < 300) := by
  exact ⟨rfl, by decide⟩

/-- C2 as amended: on the security-event path, any two alert emissions
sharing the dedup key `event_type + "_" + severity` are at least
`alert_cooldown` seconds apart, and a candidate whose key was emitted
within the last `alert_cooldown` seconds is skipped with the state
unchanged.  (The command path of the dispatcher performs no cooldown
check at all.) -/
theorem alert_cooldown_security_path (cooldown : Int) (evs : List SecCandidate)
    (hmono : List.Sorted (· ≤ ·) (evs.map SecCandidate.time)) :
    (run_security_events cooldown evs).emissions.Pairwise
      (fun a b => a.1 = b.1 → a.2 + cooldown ≤ b.2) ∧
    ∀ (st : AlertState) (etype severity : String) (now t : Int),
      lookupKey st.lastAlerts (dedupKey etype severity) = some t →
      now - t < cooldown →
      process_security_event cooldown st etype severity now = st := by
  constructor
  · cases evs with
    | nil => simp [run_security_events]
    | cons e rest =>
      refine run_security_aux cooldown (e :: rest) ⟨[], []⟩ e.time (by simp) (by simp) ?_
      rw [List.sorted_cons]
      refine ⟨?_, hmono⟩
      intro b hb
      simp only [List.map_cons, List.mem_cons] at hb
      rcases hb with hb | hb
      · exact le_of_eq hb.symm
      · exact (List.sorted_cons.mp hmono).1 b hb
  · intro st etype severity now t hl hcd
    simp [process_security_event, should_send_alert, hl, hcd]

/-- Witness for amended C2: a concrete run with three same-key
candidates at times 0, 100 and 400 under a 300-second cooldown. -/
theorem alert_cooldown_security_path_witness :
    List.Sorted (· ≤ ·)
      (([⟨"anomaly_detected", "high", 0⟩, ⟨"anomaly_detected", "high", 100⟩,
         ⟨"anomaly_detected", "high", 400⟩] : List SecCandidate).map SecCandidate.time) ∧
    ((run_security_events 300
        [⟨"anomaly_detected", "high", 0⟩, ⟨"anomaly_detected", "high", 100⟩,
         ⟨"anomaly_detected", "high", 400⟩]).emissions.Pairwise
      (fun a b => a.1 = b.1 → a.2 + 300 ≤ b.2) ∧
     ∀ (st : AlertState) (etype severity : String) (now t : Int),
       lookupKey st.lastAlerts (dedupKey etype severity) = some t →
       now - t < 300 →
       process_security_event 300 st etype severity now = st) := by
  refine ⟨by decide, ?_⟩
  exact alert_cooldown_security_path 300
    [⟨"anomaly_detected", "high", 0⟩, ⟨"anomaly_detected", "high", 100⟩,
     ⟨"anomaly_detected", "high", 400⟩] (by decide)

/-! ## Claim C5 -/

/-- Counting over a conditional singleton block of the detector scan. -/
theorem countP_if_single (c : Prop) [Decidable c] (x : RAlert) (p : RAlert → Bool) :
    (if c then [x] else []).countP p = if c then (if p x then 1 else 0) else 0 := by
  split <;> simp [List.countP_cons]

/-- Every ring event carries one of the four watchdog event types, so
the code's per-type counts partition the 60-second window. -/
theorem fs_counts_partition :
    ∀ (l : List FEvent), (∀ e ∈ l, e.etype ∈ fsEventTypes) →
      (l.filter (fun e => e.etype == "created")).length +
        (l.filter (fun e => e.etype == "modified")).length +
        (l.filter (fun e => e.etype == "moved")).length +
        (l.filter (fun e => e.etype == "deleted")).length = l.length := by
  intro l
  induction l with
  | nil => intro _; simp
  | cons e t ih =>
    intro hwf
    have he : e.etype ∈ fsEventTypes := hwf e (by simp)
    have iht := ih (fun x hx => hwf x (List.mem_cons_of_mem _ hx))
    simp only [fsEventTypes, List.mem_cons, List.not_mem_nil, or_false] at he
    rcases he with he | he | he | he <;>
      simp [List.filter_cons, he] <;> omega

/-- C5 counterexample: eleven encryption-named files inside one window
fire the `encryption_patterns` detector with a details file list of all
11 matching paths -- the list is not truncated (the truncation the code
applies elsewhere caps at 10 entries, in `rapid_modifications`). -/
theorem encryption_files_untruncated_counterexample :
    check_ransomware_patterns encRing 0 =
      [{ detector := "encryption_patterns", severity := "critical",
         details := .encryptionPatterns 11
           ["a.locked", "b.locked", "c.locked", "d.locked", "e.locked",
            "f.locked", "g.locked", "h.locked", "i.locked", "j.locked",
            "k.locked"] }] ∧
    ¬(["a.locked", "b.locked", "c.locked", "d.locked", "e.locked",
       "f.locked", "g.locked", "h.locked", "i.locked", "j.locked",
       "k.locked"] : List String).length ≤ 10 := by
  exact ⟨rfl, by decide⟩

/-- C5 as amended: after appending an event, the 60-second scan fires
`mass_file_operations` (high) iff total events > 50, `mass_renames`
(high) iff moves > 30, `suspicious_extensions` (medium) iff
suspicious-extension events > 10, `encryption_patterns` (critical) iff
encryption-named events > 5, and `rapid_modifications` (high) iff
modifies > 20; each firing writes exactly one SecurityEvent with
`event_type=ransomware_detection` whose details carry the raw counts;
`rapid_modifications` carries the first 10 modified paths while
`encryption_patterns` carries the full, untruncated list of matching
paths. -/
theorem ransomware_detectors_spec (ring : List FEvent) (now : Int)
    (hwf : ∀ e ∈ ring, e.etype ∈ fsEventTypes) :
    ((check_ransomware_patterns ring now).countP
        (fun a => a.detector == "mass_file_operations") =
      if 50 < (recentWindow ring now).length then 1 else 0) ∧
    ((check_ransomware_patterns ring now).countP
        (fun a => a.detector == "mass_renames") =
      if 30 < recentCount ring now "moved" then 1 else 0) ∧
    ((check_ransomware_patterns ring now).countP
        (fun a => a.detector == "suspicious_extensions") =
      if 10 < recentSuspicious ring now then 1 else 0) ∧
    ((check_ransomware_patterns ring now).countP
        (fun a => a.detector == "encryption_patterns") =
      if 5 < recentEncryption ring now then 1 else 0) ∧
    ((check_ransomware_patterns ring now).countP
        (fun a => a.detector == "rapid_modifications") =
      if 20 < recentCount ring now "modified" then 1 else 0) ∧
    (∀ a ∈ check_ransomware_patterns ring now,
      (a.detector = "mass_file_operations" → a.severity = "high" ∧
        a.details = .massFileOps (recentCount ring now "created")
          (recentCount ring now "modified") (recentCount ring now "moved")
          (recentCount ring now "deleted") 50) ∧
      (a.detector = "mass_renames" → a.severity = "high" ∧
        a.details = .massRenames (recentCount ring now "moved") 30) ∧
      (a.detector = "suspicious_extensions" → a.severity = "medium" ∧
        a.details = .suspiciousExts (recentSuspicious ring now) 10) ∧
      (a.detector = "encryption_patterns" → a.severity = "critical" ∧
        a.details = .encryptionPatterns (recentEncryption ring now)
          (recentEncryptionFiles ring now)) ∧
      (a.detector = "rapid_modifications" → a.severity = "high" ∧
        a.details = .rapidModifications (recentCount ring now "modified")
          ((recentModifiedFiles ring now).take 10))) ∧
    ((trigger_alerts (check_ransomware_patterns ring now)).length =
        (check_ransomware_patterns ring now).length ∧
      ∀ ev ∈ trigger_alerts (check_ransomware_patterns ring now),
        ev.event_type = "ransomware_detection") := by
  have hwfR : ∀ e ∈ recentWindow ring now, e.etype ∈ fsEventTypes :=
    fun e he => hwf e (List.mem_of_mem_filter he)
  have hpart := fs_counts_partition (recentWindow ring now) hwfR
  by_cases hE : (recentWindow ring now).isEmpty
  · have hR : recentWindow ring now = [] := List.isEmpty_iff.mp hE
    have hA : check_ransomware_patterns ring now = [] := by
      simp only [check_ransomware_patterns]
      rw [if_pos hE]
    simp [hA, hR, recentCount, recentSuspicious, recentEncryption, trigger_alerts]
  · have hA : check_ransomware_patterns ring now =
        (if 50 < recentCount ring now "created" + recentCount ring now "modified" +
              recentCount ring now "moved" + recentCount ring now "deleted" then
          [{ detector := "mass_file_operations", severity := "high",
             details := .massFileOps (recentCount ring now "created")
               (recentCount ring now "modified") (recentCount ring now "moved")
               (recentCount ring now "deleted") 50 }]
         else []) ++
        (if 30 < recentCount ring now "moved" then
          [{ detector := "mass_renames", severity := "high",
             details := .massRenames (recentCount ring now "moved") 30 }]
         else []) ++
        (if 10 < recentSuspicious ring now then
          [{ detector := "suspicious_extensions", severity := "medium",
             details := .suspiciousExts (recentSuspicious ring now) 10 }]
         else []) ++
        (if 5 < recentEncryption ring now then
          [{ detector := "encryption_patterns", severity := "critical",
             details := .encryptionPatterns (recentEncryption ring now)
               (recentEncryptionFiles ring now) }]
         else []) ++
        (if 20 < recentCount ring now "modified" then
          [{ detector := "rapid_modifications", severity := "high",
             details := .rapidModifications (recentCount ring now "modified")
               ((recentModifiedFiles ring now).take 10) }]
         else []) := by
      simp only [check_ransomware_patterns, recentCount, recentSuspicious,
        recentEncryption, recentEncryptionFiles, recentModifiedFiles]
      rw [if_neg hE]
    have hpart' : recentCount ring now "created" + recentCount ring now "modified" +
        recentCount ring now "moved" + recentCount ring now "deleted" =
        (recentWindow ring now).length := hpart
    refine ⟨?_, ?_, ?_, ?_, ?_, ?_, ?_, ?_⟩
    · rw [hA, ← hpart']
      simp only [List.countP_append, countP_if_single]
      simp
    · rw [hA]
      simp only [List.countP_append, countP_if_single]
      simp
    · rw [hA]
      simp only [List.countP_append, countP_if_single]
      simp
    · rw [hA]
      simp only [List.countP_append, countP_if_single]
      simp
    · rw [hA]
      simp only [List.countP_append, countP_if_single]
      simp
    · intro a ha
      rw [hA] at ha
      simp only [List.mem_append] at ha
      rcases ha with ((((ha | ha) | ha) | ha) | ha)
      · split at ha
        · simp only [List.mem_singleton] at ha
          subst ha
          exact ⟨fun _ => ⟨rfl, rfl⟩, fun h => by simp at h,
            fun h => by simp at h, fun h => by simp at h,
            fun h => by simp at h⟩
        · exact absurd ha (List.not_mem_nil a)
      · split at ha
        · simp only [List.mem_singleton] at ha
          subst ha
          exact ⟨fun h => by simp at h, fun _ => ⟨rfl, rfl⟩,
            fun h => by simp at h, fun h => by simp at h,
            fun h => by simp at h⟩
        · exact absurd ha (List.not_mem_nil a)
      · split at ha
        · simp only [List.mem_singleton] at ha
          subst ha
          exact ⟨fun h => by simp at h, fun h => by simp at h,
            fun _ => ⟨rfl, rfl⟩, fun h => by simp at h,
            fun h => by simp at h⟩
        · exact absurd ha (List.not_mem_nil a)
      · split at ha
        · simp only [List.mem_singleton] at ha
          subst ha
          exact ⟨fun h => by simp at h, fun h => by simp at h,
            fun h => by simp at h, fun _ => ⟨rfl, rfl⟩,
            fun h => by simp at h⟩
        · exact absurd ha (List.not_mem_nil a)
      · split at ha
        · simp only [List.mem_singleton] at ha
          subst ha
          exact ⟨fun h => by simp at h, fun h => by simp at h,
            fun h => by simp at h, fun h => by simp at h,
            fun _ => ⟨rfl, rfl⟩⟩
        · exact absurd ha (List.not_mem_nil a)
    · simp [trigger_alerts]
    · intro ev hev
      simp only [trigger_alerts, List.mem_map] at hev
      obtain ⟨a, _, rfl⟩ := hev
      rfl

/-- Witness for amended C5: the detector conjunction applied to the
concrete eleven-event window. -/
theorem ransomware_detectors_spec_witness :
    (∀ e ∈ encRing, e.etype ∈ fsEventTypes) ∧
    (check_ransomware_patterns encRing 0).countP
        (fun a => a.detector == "encryption_patterns") =
      (if 5 < recentEncryption encRing 0 then 1 else 0) := by
  refine ⟨by decide, ?_⟩
  exact (ransomware_detectors_spec encRing 0 (by decide)).2.2.2.1

/-! ## Claim C10 -/

/-- Every member of a list is bounded by its running maximum. -/
theorem le_foldr_max (l : List Nat) : ∀ a ∈ l, a ≤ l.foldr max 0 := by
  induction l with
  | nil => intro a ha; cases ha
  | cons b t ih =>
    intro a ha
    rcases List.mem_cons.mp ha with h | h
    · subst h; exact le_max_left _ _
    · exact (ih a h).trans (le_max_right _ _)

/-- Every existing row id is strictly below the next assigned rowid. -/
theorem nextId_gt (db : List QueueItem) (r : QueueItem) (hr : r ∈ db) :
    r.id < nextId db :=
  Nat.lt_succ_of_le (le_foldr_max _ _ (List.mem_map_of_mem _ hr))

/-- A status update preserves the presence of every id. -/
theorem rowPresent_update (db : List QueueItem) (j : Nat) (s : String) (x : Nat)
    (h : rowPresent db x) : rowPresent (update_queue_item db j s none) x := by
  obtain ⟨r, hr, hid⟩ := h
  refine ⟨if r.id = j then { r with status := s, retry_count := r.retry_count + 1 }
    else r, List.mem_map_of_mem _ hr, ?_⟩
  split <;> simp [hid]

/-- An insert preserves the presence of every id. -/
theorem rowPresent_add (db : List QueueItem) (t : String) (p : Payload) (pr : Int)
    (now : Nat) (x : Nat) (h : rowPresent db x) :
    rowPresent (add_to_queue db t p pr now) x := by
  obtain ⟨r, hr, hid⟩ := h
  exact ⟨r, List.mem_append_left _ hr, hid⟩

/-- After an update, every row carrying the updated id has the new
status. -/
theorem statusAt_update_self (db : List QueueItem) (j : Nat) (s : String) :
    statusAt (update_queue_item db j s none) j s := by
  intro r hr hid
  simp only [update_queue_item, List.mem_map] at hr
  obtain ⟨r0, hr0, rfl⟩ := hr
  by_cases h : r0.id = j
  · simp [h]
  · rw [if_neg h] at hid ⊢
    exact absurd hid h

/-- An update of a different id preserves a per-id status fact. -/
theorem statusAt_update_ne (db : List QueueItem) (j : Nat) (s' : String) (x : Nat)
    (s : String) (hne : x ≠ j) (hst : statusAt db x s) :
    statusAt (update_queue_item db j s' none) x s := by
  intro r hr hid
  simp only [update_queue_item, List.mem_map] at hr
  obtain ⟨r0, hr0, rfl⟩ := hr
  by_cases h : r0.id = j
  · rw [if_pos h] at hid ⊢
    simp only at hid
    exact absurd (hid.symm.trans h) hne
  · rw [if_neg h] at hid ⊢
    exact hst r0 hr0 hid

/-- An insert preserves a per-id status fact for ids already present
(the fresh rowid is strictly larger than every present id). -/
theorem statusAt_add (db : List QueueItem) (t : String) (p : Payload) (pr : Int)
    (now : Nat) (x : Nat) (s : String) (hp : rowPresent db x)
    (hst : statusAt db x s) : statusAt (add_to_queue db t p pr now) x s := by
  intro r hr hid
  rcases List.mem_append.mp hr with h | h
  · exact hst r h hid
  · simp only [List.mem_singleton] at h
    subst h
    simp only at hid
    obtain ⟨r0, hr0, hid0⟩ := hp
    have hlt := nextId_gt db r0 hr0
    rw [hid0] at hlt
    omega

/-- An update of a different id preserves a per-id existential fact. -/
theorem exists_row_update_ne (db : List QueueItem) (j : Nat) (s : String) (x : Nat)
    (Φ : QueueItem → Prop) (hne : x ≠ j) (h : ∃ r ∈ db, r.id = x ∧ Φ r) :
    ∃ r ∈ update_queue_item db j s none, r.id = x ∧ Φ r := by
  obtain ⟨r, hr, hid, hφ⟩ := h
  have heq : (if r.id = j then { r with status := s, retry_count := r.retry_count + 1 }
      else r) = r := by
    rw [if_neg]
    rw [hid]
    exact hne
  refine ⟨r, ?_, hid, hφ⟩
  simpa [update_queue_item, heq] using List.mem_map_of_mem
    (fun y => if y.id = j then { y with status := s, retry_count := y.retry_count + 1 }
      else y) hr

/-- An insert preserves a per-id existential fact. -/
theorem exists_row_add (db : List QueueItem) (t : String) (p : Payload) (pr : Int)
    (now : Nat) (x : Nat) (Φ : QueueItem → Prop) (h : ∃ r ∈ db, r.id = x ∧ Φ r) :
    ∃ r ∈ add_to_queue db t p pr now, r.id = x ∧ Φ r := by
  obtain ⟨r, hr, hid, hφ⟩ := h
  exact ⟨r, List.mem_append_left _ hr, hid, hφ⟩

/-- A re-send (whatever its network outcome) preserves the presence of
every id. -/
theorem send_rowPresent (c pk : Bool) (cid res : String) (now : Nat)
    (q : List QueueItem) (x : Nat) (h : rowPresent q x) :
    rowPresent (send_command_result c pk cid res now q) x := by
  unfold send_command_result
  split_ifs <;> first | exact rowPresent_add _ _ _ _ _ _ h | exact h

/-- A re-send preserves a per-id status fact for present ids. -/
theorem send_statusAt (c pk : Bool) (cid res : String) (now : Nat)
    (q : List QueueItem) (x : Nat) (s : String) (hp : rowPresent q x)
    (hst : statusAt q x s) :
    statusAt (send_command_result c pk cid res now q) x s := by
  unfold send_command_result
  split_ifs <;> first | exact statusAt_add _ _ _ _ _ _ _ hp hst | exact hst

/-- A re-send preserves a per-id existential fact. -/
theorem send_exists_row (c pk : Bool) (cid res : String) (now : Nat)
    (q : List QueueItem) (x : Nat) (Φ : QueueItem → Prop)
    (h : ∃ r ∈ q, r.id = x ∧ Φ r) :
    ∃ r ∈ send_command_result c pk cid res now q, r.id = x ∧ Φ r := by
  unfold send_command_result
  split_ifs <;> first | exact exists_row_add _ _ _ _ _ _ _ h | exact h

/-- One drain step preserves the presence of every id. -/
theorem step_rowPresent (c : Bool) (pk : String → Bool) (now : Nat)
    (acc : List QueueItem) (item : QueueItem) (x : Nat) (h : rowPresent acc x) :
    rowPresent (offline_queue_step c pk now acc item) x := by
  unfold offline_queue_step
  cases item.payload with
  | cmdResult cid res => exact rowPresent_update _ _ _ _ (send_rowPresent _ _ _ _ _ _ _ h)
  | raw s => exact rowPresent_update _ _ _ _ h

/-- One drain step on a different claimed item preserves a per-id
status fact for present ids. -/
theorem step_statusAt_ne (c : Bool) (pk : String → Bool) (now : Nat)
    (acc : List QueueItem) (item : QueueItem) (x : Nat) (s : String)
    (hne : x ≠ item.id) (hp : rowPresent acc x) (hst : statusAt acc x s) :
    statusAt (offline_queue_step c pk now acc item) x s := by
  unfold offline_queue_step
  cases item.payload with
  | cmdResult cid res =>
    exact statusAt_update_ne _ _ _ _ _ hne
      (send_statusAt _ _ _ _ _ _ _ _ hp hst)
  | raw s' => exact statusAt_update_ne _ _ _ _ _ hne hst

/-- After its own drain step, a claimed item with a parseable payload is
`completed` -- whatever the POST outcome. -/
theorem step_statusAt_self (c : Bool) (pk : String → Bool) (now : Nat)
    (acc : List QueueItem) (item : QueueItem) (cid res : String)
    (hpay : item.payload = .cmdResult cid res) :
    statusAt (offline_queue_step c pk now acc item) item.id "completed" := by
  unfold offline_queue_step
  rw [hpay]
  exact statusAt_update_self _ _ _

/-- One drain step on a different claimed item preserves a per-id
existential fact. -/
theorem step_exists_row (c : Bool) (pk : String → Bool) (now : Nat)
    (acc : List QueueItem) (item : QueueItem) (x : Nat) (Φ : QueueItem → Prop)
    (hne : x ≠ item.id) (h : ∃ r ∈ acc, r.id = x ∧ Φ r) :
    ∃ r ∈ offline_queue_step c pk now acc item, r.id = x ∧ Φ r := by
  unfold offline_queue_step
  cases item.payload with
  | cmdResult cid res =>
    exact exists_row_update_ne _ _ _ _ _ hne (send_exists_row _ _ _ _ _ _ _ _ h)
  | raw s => exact exists_row_update_ne _ _ _ _ _ hne h

/-- Presence of an id survives the whole drain fold. -/
theorem fold_rowPresent (c : Bool) (pk : String → Bool) (now : Nat) :
    ∀ (items : List QueueItem) (acc : List QueueItem) (x : Nat),
      rowPresent acc x →
      rowPresent (items.foldl (offline_queue_step c pk now) acc) x := by
  intro items
  induction items with
  | nil => intro acc x h; exact h
  | cons it ts ih =>
    intro acc x h
    exact ih _ x (step_rowPresent _ _ _ _ _ _ h)

/-- A per-id status fact survives the drain fold over items with other
ids. -/
theorem fold_statusAt (c : Bool) (pk : String → Bool) (now : Nat) :
    ∀ (items : List QueueItem) (acc : List QueueItem) (x : Nat) (s : String),
      (∀ it ∈ items, it.id ≠ x) → rowPresent acc x → statusAt acc x s →
      statusAt (items.foldl (offline_queue_step c pk now) acc) x s := by
  intro items
  induction items with
  | nil => intro acc x s _ _ hs; exact hs
  | cons it ts ih =>
    intro acc x s hids hp hs
    refine ih _ x s (fun i hi => hids i (List.mem_cons_of_mem _ hi))
      (step_rowPresent _ _ _ _ _ _ hp) ?_
    exact step_statusAt_ne _ _ _ _ _ _ _
      (fun he => hids it (List.mem_cons_self _ _) he.symm) hp hs

/-- A per-id existential fact survives the drain fold over items with
other ids. -/
theorem fold_exists_row (c : Bool) (pk : String → Bool) (now : Nat)
    (Φ : QueueItem → Prop) :
    ∀ (items : List QueueItem) (acc : List QueueItem) (x : Nat),
      (∀ it ∈ items, it.id ≠ x) → (∃ r ∈ acc, r.id = x ∧ Φ r) →
      ∃ r ∈ items.foldl (offline_queue_step c pk now) acc, r.id = x ∧ Φ r := by
  intro items
  induction items with
  | nil => intro acc x _ h; exact h
  | cons it ts ih =>
    intro acc x hids h
    refine ih _ x (fun i hi => hids i (List.mem_cons_of_mem _ hi)) ?_
    exact step_exists_row _ _ _ _ _ _ _
      (fun he => hids it (List.mem_cons_self _ _) he.symm) h

/-- Every claimed queue item is a row of the queue it was claimed
from. -/
theorem claimed_mem (db : List QueueItem) (qt : Option String) (st : String)
    (lim : Nat) : ∀ it ∈ get_queue_items db qt st lim, it ∈ db := by
  intro it hit
  have h2 := (List.take_sublist _ _).mem hit
  cases qt with
  | none => exact List.mem_of_mem_filter ((List.perm_insertionSort queueOrder _).subset h2)
  | some t => exact List.mem_of_mem_filter ((List.perm_insertionSort queueOrder _).subset h2)

/-- When the queue's row ids are distinct, so are the claimed items'
ids. -/
theorem claimed_ids_nodup (db : List QueueItem) (qt : Option String) (st : String)
    (lim : Nat) (hnd : (db.map (·.id)).Nodup) :
    ((get_queue_items db qt st lim).map (·.id)).Nodup := by
  unfold get_queue_items
  cases qt with
  | none =>
    have h1 : ((db.filter (fun x : QueueItem => x.status == st)).map (·.id)).Nodup :=
      hnd.sublist ((List.filter_sublist _).map _)
    have h2 : (((db.filter (fun x : QueueItem => x.status == st)).insertionSort
        queueOrder).map (·.id)).Nodup :=
      (((List.perm_insertionSort queueOrder _).map _).nodup_iff).mpr h1
    exact h2.sublist ((List.take_sublist _ _).map _)
  | some t =>
    have h1 : ((db.filter
        (fun x : QueueItem => x.queue_type == t && x.status == st)).map (·.id)).Nodup :=
      hnd.sublist ((List.filter_sublist _).map _)
    have h2 : (((db.filter
        (fun x : QueueItem => x.queue_type == t && x.status == st)).insertionSort
        queueOrder).map (·.id)).Nodup :=
      (((List.perm_insertionSort queueOrder _).map _).nodup_iff).mpr h1
    exact h2.sublist ((List.take_sublist _ _).map _)

/-- C10: in `_process_offline_queue`, every claimed `command_result`
item whose payload parses is marked `completed` even when the POST of
its result fails; a failed POST instead enqueues a brand-new pending
`command_result` item with the same command id and result (an id no
existing row had), so the original item never transitions to `failed`
through this path. -/
theorem process_offline_queue_spec (cfg : Bool) (postOk : String → Bool) (now : Nat)
    (q : List QueueItem) (hnd : (q.map (·.id)).Nodup) (item : QueueItem)
    (hitem : item ∈ get_queue_items q (some "command_result") "pending" 10)
    (cid res : String) (hpay : item.payload = .cmdResult cid res) :
    statusAt (process_offline_queue cfg postOk now q) item.id "completed" ∧
    (cfg = true → postOk cid = false →
      ∃ r ∈ process_offline_queue cfg postOk now q,
        r.status = "pending" ∧ r.queue_type = "command_result" ∧
        r.payload = .cmdResult cid res ∧ ∀ old ∈ q, old.id ≠ r.id) := by
  have hidsnd := claimed_ids_nodup q (some "command_result") "pending" 10 hnd
  have hmemq : item ∈ q := claimed_mem q _ _ _ item hitem
  obtain ⟨l1, l2, hsplit⟩ := List.append_of_mem hitem
  have hl2ne : ∀ it ∈ l2, it.id ≠ item.id := by
    have hx : ((l1 ++ item :: l2).map (·.id)).Nodup := hsplit ▸ hidsnd
    rw [List.map_append, List.map_cons] at hx
    have h4 := (List.nodup_append.mp hx).2.1
    have h5 := List.nodup_cons.mp h4
    intro it hit heq
    exact h5.1 (heq ▸ List.mem_map_of_mem _ hit)
  have hpq : rowPresent q item.id := ⟨item, hmemq, rfl⟩
  have hfold : process_offline_queue cfg postOk now q =
      l2.foldl (offline_queue_step cfg postOk now)
        (offline_queue_step cfg postOk now
          (l1.foldl (offline_queue_step cfg postOk now) q) item) := by
    unfold process_offline_queue
    rw [hsplit, List.foldl_append, List.foldl_cons]
  have hp1 : rowPresent (l1.foldl (offline_queue_step cfg postOk now) q) item.id :=
    fold_rowPresent cfg postOk now l1 q item.id hpq
  constructor
  · rw [hfold]
    refine fold_statusAt cfg postOk now l2 _ item.id "completed" hl2ne
      (step_rowPresent _ _ _ _ _ _ hp1) ?_
    exact step_statusAt_self cfg postOk now _ item cid res hpay
  · intro hcfg hpost
    rw [hfold]
    set acc1 := l1.foldl (offline_queue_step cfg postOk now) q with hacc1
    have hstep : offline_queue_step cfg postOk now acc1 item =
        update_queue_item
          (add_to_queue acc1 "command_result" (.cmdResult cid res) 0 now)
          item.id "completed" none := by
      unfold offline_queue_step
      rw [hpay]
      subst hcfg
      simp [send_command_result, hpost]
    have hfresh : ∀ old ∈ q, old.id ≠ nextId acc1 := by
      intro old hold
      obtain ⟨r0, hr0, hid0⟩ :=
        fold_rowPresent cfg postOk now l1 q old.id ⟨old, hold, rfl⟩
      have hlt := nextId_gt acc1 r0 hr0
      omega
    have hne2 : nextId acc1 ≠ item.id := by
      obtain ⟨r0, hr0, hid0⟩ := hp1
      have hlt := nextId_gt acc1 r0 hr0
      omega
    have hex0 : ∃ r ∈ add_to_queue acc1 "command_result" (.cmdResult cid res) 0 now,
        r.id = nextId acc1 ∧ (r.status = "pending" ∧ r.queue_type = "command_result" ∧
          r.payload = .cmdResult cid res) := by
      refine ⟨⟨nextId acc1, "command_result", .cmdResult cid res, 0, now, 0, 3,
        "pending"⟩, List.mem_append_right _ ?_, rfl, rfl, rfl, rfl⟩
      exact List.mem_singleton_self _
    have hex1 : ∃ r ∈ offline_queue_step cfg postOk now acc1 item,
        r.id = nextId acc1 ∧ (r.status = "pending" ∧ r.queue_type = "command_result" ∧
          r.payload = .cmdResult cid res) := by
      rw [hstep]
      exact exists_row_update_ne _ _ _ _ _ hne2 hex0
    have hl2fresh : ∀ it ∈ l2, it.id ≠ nextId acc1 := by
      intro it hit
      have hin : it ∈ get_queue_items q (some "command_result") "pending" 10 := by
        rw [hsplit]
        exact List.mem_append_right _ (List.mem_cons_of_mem _ hit)
      exact hfresh it (claimed_mem q _ _ _ it hin)
    obtain ⟨r, hr, hid, hst, hqt, hpl⟩ :=
      fold_exists_row cfg postOk now _ l2 _ (nextId acc1) hl2fresh hex1
    exact ⟨r, hr, hst, hqt, hpl, fun old hold => hid ▸ hfresh old hold⟩

/-- Witness for C10: draining a concrete one-item queue with a failing
POST completes the claimed item and appends a fresh pending
duplicate. -/
theorem process_offline_queue_spec_witness :
    (([wPendingResultRow].map (·.id)).Nodup ∧
     wPendingResultRow ∈
       get_queue_items [wPendingResultRow] (some "command_result") "pending" 10 ∧
     wPendingResultRow.payload = .cmdResult "c" "r") ∧
    (statusAt (process_offline_queue true (fun _ => false) 9 [wPendingResultRow])
        wPendingResultRow.id "completed" ∧
     (true = true → (fun _ : String => false) "c" = false →
       ∃ r ∈ process_offline_queue true (fun _ => false) 9 [wPendingResultRow],
         r.status = "pending" ∧ r.queue_type = "command_result" ∧
         r.payload = .cmdResult "c" "r" ∧
         ∀ old ∈ [wPendingResultRow], old.id ≠ r.id)) := by
  refine ⟨⟨by decide, by decide, rfl⟩, ?_⟩
  exact process_offline_queue_spec true (fun _ => false) 9 [wPendingResultRow]
    (by decide) wPendingResultRow (by decide) "c" "r" rfl

end Protekt
